import Mathlib

/-!
Verification development for the Pyroomacoustics example repository.

The repository ships two example driver scripts (`examples/room_from_stl.py`
and `examples/room_from_rt60_CR2.py`); the acoustic engine they drive
(walls, image-source method, ray tracing, RIR synthesis, room orchestrator)
belongs to the repository library and is not part of the reviewed slice,
so it is modelled here from the specification (section 3, 4 and 7 of the
spec).  All real-valued quantities are embedded as exact rationals; square
roots of rationals, needed only for path lengths and amplitudes, are
approximated by an integer-square-root based rational function.
-/

/-- Modelled from the spec: a 3D point or vector with exact rational
coordinates (the library stores positions as numeric 3-vectors). -/
structure Vec3 where
  x : ℚ
  y : ℚ
  z : ℚ
deriving DecidableEq, Repr

def Vec3.add (a b : Vec3) : Vec3 := ⟨a.x + b.x, a.y + b.y, a.z + b.z⟩

def Vec3.sub (a b : Vec3) : Vec3 := ⟨a.x - b.x, a.y - b.y, a.z - b.z⟩

def Vec3.smul (q : ℚ) (a : Vec3) : Vec3 := ⟨q * a.x, q * a.y, q * a.z⟩

def Vec3.dot (a b : Vec3) : ℚ := a.x * b.x + a.y * b.y + a.z * b.z

def Vec3.cross (a b : Vec3) : Vec3 :=
  ⟨a.y * b.z - a.z * b.y, a.z * b.x - a.x * b.z, a.x * b.y - a.y * b.x⟩

def Vec3.zero : Vec3 := ⟨0, 0, 0⟩

/-- Squared Euclidean distance between two points (kept squared so that it
stays rational). -/
def dist2 (a b : Vec3) : ℚ := Vec3.dot (Vec3.sub a b) (Vec3.sub a b)

/-- Modelled from the spec: a wall is a planar polygon (a triangle here, as
both example scripts build one wall per STL mesh triangle) together with an
energy-absorption coefficient and a scattering coefficient. -/
structure Wall where
  p0 : Vec3
  p1 : Vec3
  p2 : Vec3
  absorption : ℚ
  scattering : ℚ
deriving DecidableEq, Repr

/-- Normal vector of the wall supporting plane. -/
def Wall.normal (w : Wall) : Vec3 :=
  Vec3.cross (Vec3.sub w.p1 w.p0) (Vec3.sub w.p2 w.p0)

/-- Modelled from the spec: a zero-area (degenerate) wall, detected as a
vanishing normal vector. -/
def Wall.isDegenerate (w : Wall) : Bool := w.normal = Vec3.zero

/-- Library function `wall_factory`: build a wall from three corner points and
its material coefficients. -/
def wall_factory (p0 p1 p2 : Vec3) (absorption scattering : ℚ) : Wall :=
  ⟨p0, p1, p2, absorption, scattering⟩

/-- Mirror image of a point across the supporting plane of a wall
(the elementary step of the image source method). -/
def reflectPoint (w : Wall) (p : Vec3) : Vec3 :=
  let n := w.normal
  let k := 2 * Vec3.dot (Vec3.sub p w.p0) n / Vec3.dot n n
  Vec3.sub p (Vec3.smul k n)

/-- Specular reflection of a direction vector on a wall with normal `n`. -/
def reflectDir (n d : Vec3) : Vec3 :=
  Vec3.sub d (Vec3.smul (2 * Vec3.dot d n / Vec3.dot n n) n)

/-- Test whether a point lying on the wall plane is inside the wall
triangle (same-side test against the three edges). -/
def insideTriangle (w : Wall) (p : Vec3) : Bool :=
  let n := w.normal
  let c0 := Vec3.dot (Vec3.cross (Vec3.sub w.p1 w.p0) (Vec3.sub p w.p0)) n
  let c1 := Vec3.dot (Vec3.cross (Vec3.sub w.p2 w.p1) (Vec3.sub p w.p1)) n
  let c2 := Vec3.dot (Vec3.cross (Vec3.sub w.p0 w.p2) (Vec3.sub p w.p2)) n
  decide (0 ≤ c0) && decide (0 ≤ c1) && decide (0 ≤ c2)

/-- Parameter `t ∈ (0,1)` at which the open segment `a + t (b - a)` crosses
the wall triangle, if it does. -/
def segHitParam (w : Wall) (a b : Vec3) : Option ℚ :=
  let n := w.normal
  let d := Vec3.sub b a
  let den := Vec3.dot n d
  if den = 0 then none
  else
    let t := Vec3.dot n (Vec3.sub w.p0 a) / den
    if 0 < t ∧ t < 1 then
      if insideTriangle w (Vec3.add a (Vec3.smul t d)) then some t else none
    else none

/-- Modelled from the spec: an image source carries a virtual position, its
reflection order, the generating wall sequence (most recent wall first) and
the accumulated non-geometric attenuation, the product of `1 - absorption`
over the walls traversed. -/
structure ImageSource where
  pos : Vec3
  order : ℕ
  wallSeq : List ℕ
  attenuation : ℚ
deriving DecidableEq, Repr

/-- The order-0 image source: the source itself (direct path), with empty
wall sequence and unit accumulated attenuation. -/
def directSource (src : Vec3) : ImageSource := ⟨src, 0, [], 1⟩

/-- One generation step of the image source method: reflect an image across
every wall of the room, extending its wall sequence and compounding the
attenuation by `1 - absorption` of the traversed wall. -/
def children (walls : List Wall) (img : ImageSource) : List ImageSource :=
  walls.enum.map fun p =>
    { pos := reflectPoint p.2 img.pos
      order := img.order + 1
      wallSeq := p.1 :: img.wallSeq
      attenuation := img.attenuation * (1 - p.2.absorption) }

/-- All candidate image sources of exactly depth `n`. -/
def ismLayer (walls : List Wall) (src : Vec3) : ℕ → List ImageSource
  | 0 => [directSource src]
  | n + 1 => (ismLayer walls src n).flatMap (children walls)

/-- All candidate image sources of depth up to `n` (literal-order mode of
the image source engine). -/
def genUpTo (walls : List Wall) (src : Vec3) (n : ℕ) : List ImageSource :=
  (List.range (n + 1)).flatMap (ismLayer walls src)

/-- Modelled from the spec: visibility of an image source from a microphone.
The straight path from the image to the microphone must cross its target
wall (the most recent generating wall) and must not cross any occluding
wall strictly before reaching the target wall.  The direct path (empty wall
sequence, order 0) is always reported. -/
def visible (walls : List Wall) (img : ImageSource) (mic : Vec3) : Bool :=
  match img.wallSeq with
  | [] => true
  | tgt :: _ =>
    match walls[tgt]? with
    | none => false
    | some w =>
      match segHitParam w img.pos mic with
      | none => false
      | some tTgt =>
        walls.enum.all fun p =>
          p.1 = tgt ||
            match segHitParam p.2 img.pos mic with
            | none => true
            | some t => decide (tTgt ≤ t)

/-- The image sources of depth up to `n` that are visible from the given
microphone. -/
def validImages (walls : List Wall) (src mic : Vec3) (n : ℕ) : List ImageSource :=
  (genUpTo walls src n).filter (fun img => visible walls img mic)

/-- Energy contributed by one image source at a microphone: the squared
amplitude `attenuation / distance`, kept in squared (rational) form —
everything beyond the accumulated attenuation is geometric `1/r` spreading. -/
def imgEnergy (img : ImageSource) (mic : Vec3) : ℚ :=
  img.attenuation ^ 2 / dist2 img.pos mic

/-- Total energy of the deterministic (image-source) RIR component captured
at a microphone with reflections up to order `n`. -/
def detEnergy (walls : List Wall) (src mic : Vec3) (n : ℕ) : ℚ :=
  ((validImages walls src mic n).map (fun img => imgEnergy img mic)).sum

/-- Modelled from the spec: automatic-depth generation used when the
reflection order is a negative sentinel.  A branch is extended only while
its accumulated contribution is still at least the configurable energy
threshold `thr`; branches whose contribution has fallen below `thr` are
pruned. -/
def autoLayer (walls : List Wall) (src : Vec3) (thr : ℚ) : ℕ → List ImageSource
  | 0 => [directSource src]
  | n + 1 =>
    ((autoLayer walls src thr n).filter
      (fun img => decide (thr ≤ img.attenuation))).flatMap (children walls)

/-- All image sources produced by the automatic-depth mode, scanning depths
`0..fuel`.  The `fuel` argument is only a technical recursion bound: the
energy-decay cutoff makes the output independent of it beyond a finite
depth (proved below). -/
def autoGen (walls : List Wall) (src : Vec3) (thr : ℚ) (fuel : ℕ) : List ImageSource :=
  (List.range (fuel + 1)).flatMap (autoLayer walls src thr)

/-- Modelled from the spec: the image source engine.  A non-negative max
order is a literal reflection depth; a negative max order is a sentinel
triggering automatic depth selection by the energy-decay cutoff. -/
def imageSourceEngine (walls : List Wall) (src : Vec3) (maxOrder : ℤ)
    (thr : ℚ) (fuel : ℕ) : List ImageSource :=
  if 0 ≤ maxOrder then genUpTo walls src maxOrder.toNat
  else autoGen walls src thr fuel

/-- Rational approximation of the square root (integer square root of the
scaled numerator), used for path lengths and amplitudes, which are the only
places the embedding needs a square root. -/
def ratSqrt (q : ℚ) : ℚ :=
  (Nat.sqrt (q.num.toNat * q.den) : ℚ) / (q.den : ℚ)

/-- Parameter `t > 0` at which the ray `o + t d` first crosses the wall
triangle, if it does. -/
def rayHitParam (w : Wall) (o d : Vec3) : Option ℚ :=
  let n := w.normal
  let den := Vec3.dot n d
  if den = 0 then none
  else
    let t := Vec3.dot n (Vec3.sub w.p0 o) / den
    if 0 < t then
      if insideTriangle w (Vec3.add o (Vec3.smul t d)) then some t else none
    else none

/-- Nearest wall hit by a ray: the wall with the smallest positive hit
parameter. -/
def nearestHit : List Wall → Vec3 → Vec3 → Option (ℚ × Wall)
  | [], _, _ => none
  | w :: ws, o, d =>
    match rayHitParam w o d, nearestHit ws o d with
    | none, rest => rest
    | some t, none => some (t, w)
    | some t, some (tb, wb) => if t < tb then some (t, w) else some (tb, wb)

/-- Why a ray stopped propagating. -/
inductive StopReason where
  | bounceCap
  | belowThreshold
  | escaped
deriving DecidableEq, Repr

/-- Outcome of propagating one ray: number of bounces performed, the stop
reason, and the energy deposits (arrival length, energy) made into the
microphone histogram along the way. -/
structure RayResult where
  bounces : ℕ
  reason : StopReason
  deposits : List (ℚ × ℚ)
deriving DecidableEq, Repr

/-- Squared distance from point `m` to the segment `a`–`b` (quadratic
minimisation with clamped parameter, all rational). -/
def segDist2 (a b m : Vec3) : ℚ :=
  let d := Vec3.sub b a
  let dd := Vec3.dot d d
  if dd = 0 then dist2 a m
  else
    let t := Vec3.dot (Vec3.sub m a) d / dd
    let tc := if t < 0 then 0 else if 1 < t then 1 else t
    dist2 (Vec3.add a (Vec3.smul tc d)) m

/-- Modelled from the spec: propagate one ray through the geometry by
nearest-wall intersection.  At each bounce the ray deposits its current
energy into the microphone histogram when it passes within the capture
radius, reflects specularly and is attenuated by `1 - absorption`; it
terminates when its energy drops below the threshold `thr`, when it leaves
the geometry, or when the maximum bounce count runs out. -/
def traceRay (walls : List Wall) (thr : ℚ) (mic : Vec3) (rad2 : ℚ) :
    ℕ → Vec3 → Vec3 → ℚ → ℚ → RayResult
  | 0, _, _, _, _ => ⟨0, StopReason.bounceCap, []⟩
  | fuel + 1, o, d, e, plen =>
    if e < thr then ⟨0, StopReason.belowThreshold, []⟩
    else
      match nearestHit walls o d with
      | none => ⟨0, StopReason.escaped, []⟩
      | some (t, w) =>
        let hitPt := Vec3.add o (Vec3.smul t d)
        let plen2 := plen + ratSqrt (dist2 o hitPt)
        let dep := if segDist2 o hitPt mic ≤ rad2 then [(plen2, e)] else []
        let res := traceRay walls thr mic rad2 fuel hitPt
          (reflectDir w.normal d) (e * (1 - w.absorption)) plen2
        ⟨res.bounces + 1, res.reason, dep ++ res.deposits⟩

/-- Linear congruential step used to model the library pseudo-random
number generator. -/
def lcg (s : ℕ) : ℕ := (1103515245 * s + 12345) % 2147483648

/-- A pseudo-random rational in `[-1, 1]` derived from a generator state. -/
def pseudoRat (s : ℕ) : ℚ := ((lcg s % 201 : ℕ) : ℚ) / 100 - 1

/-- Modelled from the spec: the direction of the `k`-th emitted ray, drawn
from the pseudo-random generator seeded by the room seed. -/
def rayDir (seed k : ℕ) : Vec3 :=
  ⟨pseudoRat (seed + 3 * k), pseudoRat (seed + 3 * k + 1), pseudoRat (seed + 3 * k + 2)⟩

/-- Add `v` to entry `i` of a sampled signal; deposits beyond the cap are
dropped (truncation at the configured length). -/
def addAt : List ℚ → ℕ → ℚ → List ℚ
  | [], _, _ => []
  | x :: xs, 0, v => (x + v) :: xs
  | x :: xs, n + 1, v => x :: addAt xs n v

/-- Modelled from the spec: the ray tracing engine.  It emits `nRays` rays
from the source in pseudo-randomly sampled directions, propagates each one
by nearest-wall intersection with specular reflection and absorption, and
accumulates the energies deposited near the microphone into a time-binned
histogram of `histLen` bins of width `res`. -/
def rayHistogram (walls : List Wall) (src mic : Vec3) (thr rad2 : ℚ)
    (maxBounces nRays seed : ℕ) (e0 res : ℚ) (histLen : ℕ) : List ℚ :=
  (List.range nRays).foldl
    (fun hist k =>
      let r := traceRay walls thr mic rad2 maxBounces src (rayDir seed k) e0 0
      r.deposits.foldl (fun h p => addAt h (Int.toNat ⌊p.1 / res⌋) p.2) hist)
    (List.replicate histLen 0)

/-- Deterministic pseudo-random sign sequence used to model the stochastic
tail as uncorrelated noise of matching energy. -/
def noiseAt (k : ℕ) : ℚ := if lcg k % 2 = 0 then 1 else -1

/-- Sample index of an arrival with path length `len` at sampling rate `fs`
and sound speed `c` (the fractional part of the delay is dropped in this
embedding instead of being spread by an interpolation kernel). -/
def sampleIdx (fs : ℕ) (c len : ℚ) : ℕ := Int.toNat ⌊(fs : ℚ) * len / c⌋

/-- Modelled from the spec: RIR synthesis.  Image-source arrivals are
placed at their sample index with amplitude `attenuation / distance`; each
histogram bin contributes noise with amplitude the square root of its
energy; air absorption is applied as a per-sample exponential post-filter. -/
def synthesize (fs : ℕ) (c : ℚ) (len : ℕ) (images : List ImageSource)
    (mic : Vec3) (hist : List ℚ) (airCoef : ℚ) : List ℚ :=
  let base := List.replicate len (0 : ℚ)
  let withIsm := images.foldl
    (fun acc img =>
      let d := ratSqrt (dist2 img.pos mic)
      addAt acc (sampleIdx fs c d) (img.attenuation / d)) base
  let withTail := hist.enum.foldl
    (fun acc p => addAt acc p.1 (noiseAt p.1 * ratSqrt p.2)) withIsm
  withTail.enum.map (fun p => p.2 * airCoef ^ p.1)

/-- Modelled from the spec: a sound source with a position, an optional
injected signal and a delay offset. -/
structure Source where
  pos : Vec3
  signal : List ℚ
  delay : ℚ
deriving DecidableEq, Repr

/-- Modelled from the spec: the room orchestrator state.  It owns walls,
sources and microphones, the sampling rate, the speed of sound, the max
reflection order, the ray-tracing parameters, and the computed artifacts:
per-microphone per-source image-source sets, energy histograms and RIRs. -/
structure Room where
  walls : List Wall
  fs : ℕ
  maxOrder : ℤ
  rayTracingOn : Bool
  airAbsorptionOn : Bool
  sources : List Source
  mics : List Vec3
  c : ℚ
  thr : ℚ
  ismFuel : ℕ
  nRays : ℕ
  maxBounces : ℕ
  rad2 : ℚ
  histRes : ℚ
  rirLen : ℕ
  airCoef : ℚ
  seed : ℕ
  images : List (List (List ImageSource))
  hists : List (List (List ℚ))
  rirs : List (List (List ℚ))
deriving DecidableEq, Repr

/-- Constructor `pra.Room(walls, fs=…, max_order=…, ray_tracing=…, air_absorption=…)`:
construct a room from walls and the keyword parameters the example scripts
pass, with the remaining simulation parameters at their defaults. -/
def mkRoom (walls : List Wall) (fs : ℕ) (maxOrder : ℤ)
    (rayTracing airAbsorption : Bool) : Room :=
  { walls := walls, fs := fs, maxOrder := maxOrder
    rayTracingOn := rayTracing, airAbsorptionOn := airAbsorption
    sources := [], mics := [], c := 343, thr := 1 / 1000000
    ismFuel := 64, nRays := 4, maxBounces := 8, rad2 := 1 / 4
    histRes := 1 / 100, rirLen := 32, airCoef := 999 / 1000, seed := 0
    images := [], hists := [], rirs := [] }

def Room.add_source (r : Room) (p : Vec3) (signal : List ℚ) (delay : ℚ) : Room :=
  { r with sources := r.sources ++ [⟨p, signal, delay⟩] }

def Room.add_microphone (r : Room) (p : Vec3) : Room :=
  { r with mics := r.mics ++ [p] }

def Room.add_microphone_array (r : Room) (ps : List Vec3) : Room :=
  { r with mics := r.mics ++ ps }

/-- Method `Room.mov_microphone(i, p)`: relocate microphone `i` to position `p`
(microphone positions are mutable per the spec data model). -/
def Room.mov_microphone (r : Room) (i : ℕ) (p : Vec3) : Room :=
  { r with mics := r.mics.set i p }

/-- Image-source sets (one per source) seen by one microphone. -/
def ismForMic (r : Room) (mic : Vec3) : List (List ImageSource) :=
  r.sources.map fun s =>
    (imageSourceEngine r.walls s.pos r.maxOrder r.thr r.ismFuel).filter
      (fun img => visible r.walls img mic)

/-- Method `Room.image_source_model()`: run the image source engine for every
(source, microphone) pair and store the resulting image-source sets. -/
def Room.image_source_model (r : Room) : Room :=
  { r with images := r.mics.map (ismForMic r) }

/-- Ray-traced energy histograms (one per source) captured by one
microphone; all zeros when ray tracing is disabled. -/
def histForMic (r : Room) (mic : Vec3) : List (List ℚ) :=
  r.sources.map fun s =>
    if r.rayTracingOn then
      rayHistogram r.walls s.pos mic r.thr r.rad2 r.maxBounces r.nRays r.seed 1
        r.histRes r.rirLen
    else List.replicate r.rirLen 0

/-- Method `Room.ray_tracing()`: run the ray tracing engine for every
(source, microphone) pair and store the energy histograms. -/
def Room.ray_tracing (r : Room) : Room :=
  { r with hists := r.mics.map (histForMic r) }

/-- Synthesis of one (source, microphone) RIR from the stored artifacts. -/
def synthPair (r : Room) (mic : Vec3) (iss : List ImageSource)
    (hist : List ℚ) : List ℚ :=
  synthesize r.fs r.c r.rirLen iss mic hist
    (if r.airAbsorptionOn then r.airCoef else 1)

/-- Method `Room.compute_rir()`: merge the stored image-source sets and histograms
into one RIR per (source, microphone) pair.  No ray is re-sampled here:
only the stored artifacts are read. -/
def Room.compute_rir (r : Room) : Room :=
  let newRirs := (r.mics.zip (r.images.zip r.hists)).map
    (fun p => (p.2.1.zip p.2.2).map (fun q => synthPair r p.1 q.1 q.2))
  { r with rirs := newRirs }

/-- Method `Room.simulate()`: the full pipeline — image source model, ray tracing,
RIR synthesis. -/
def Room.simulate (r : Room) : Room :=
  ((r.image_source_model).ray_tracing).compute_rir

/-- Modelled from the spec: the error taxonomy of section 7. -/
inductive SimError where
  | geometryError
  | configurationError
  | numericalError
  | resourceLimitError
deriving DecidableEq, Repr

def vecMin (a b : Vec3) : Vec3 := ⟨min a.x b.x, min a.y b.y, min a.z b.z⟩

def vecMax (a b : Vec3) : Vec3 := ⟨max a.x b.x, max a.y b.y, max a.z b.z⟩

def wallVerts (w : Wall) : List Vec3 := [w.p0, w.p1, w.p2]

def roomVerts (walls : List Wall) : List Vec3 := walls.flatMap wallVerts

/-- Lower corner of the axis-aligned bounding box of the room geometry. -/
def boundsLo (walls : List Wall) : Vec3 :=
  match roomVerts walls with
  | [] => Vec3.zero
  | v :: vs => vs.foldl vecMin v

/-- Upper corner of the axis-aligned bounding box of the room geometry. -/
def boundsHi (walls : List Wall) : Vec3 :=
  match roomVerts walls with
  | [] => Vec3.zero
  | v :: vs => vs.foldl vecMax v

def insideBounds (lo hi p : Vec3) : Bool :=
  decide (lo.x ≤ p.x) && decide (p.x ≤ hi.x) &&
  decide (lo.y ≤ p.y) && decide (p.y ≤ hi.y) &&
  decide (lo.z ≤ p.z) && decide (p.z ≤ hi.z)

/-- Modelled from the spec: validation performed at room-construction /
parameter-set time.  Degenerate walls and sources or microphones outside
the room bounds are geometry errors; a zero ray count or a zero sampling
rate is a configuration error.  A room that passes is returned unchanged. -/
def validateRoom (r : Room) : Except SimError Room :=
  if r.walls.any Wall.isDegenerate then Except.error SimError.geometryError
  else if r.fs = 0 then Except.error SimError.configurationError
  else if r.nRays = 0 then Except.error SimError.configurationError
  else if (r.sources.map Source.pos ++ r.mics).all
      (insideBounds (boundsLo r.walls) (boundsHi r.walls)) then Except.ok r
  else Except.error SimError.geometryError

/-- Decay-incomplete check of the spec synthesis failure mode: some RIR
still ends in a nonzero sample at the length cap. -/
def decayIncomplete (r : Room) : Bool :=
  r.rirs.any fun perMic =>
    perMic.any fun rir => decide (rir.getLast?.getD 0 ≠ 0)

/-- Modelled from the spec: running the simulation on a constructed room.
Geometry and configuration are validated at construction, never here; the
only error a simulation run can report is the resource-limit condition of
the spec synthesis failure mode (incomplete energy decay at the cap). -/
def simulateChecked (r : Room) : Except SimError Room :=
  let r2 := r.simulate
  if decayIncomplete r2 then Except.error SimError.resourceLimitError
  else Except.ok r2

/-- The `--method` command-line choice of `room_from_rt60_CR2.py`. -/
inductive Method where
  | ism
  | hybrid
deriving DecidableEq, Repr

/-- Choices `methods = ["ism", "hybrid"]` with `default=methods[1]`: the parsed
value of `--method`, defaulting to `hybrid` when absent. -/
def parseMethod (arg : Option Method) : Method := arg.getD Method.hybrid

/-- External collaborators of `room_from_rt60_CR2.py`: the wav file, the
STL mesh triangles, the material coefficients looked up for
`mat_CR2_concrete`, and the values returned by `pra.inverse_sabine`. -/
structure Rt60Ext where
  wavFs : ℕ
  wavAudio : List ℚ
  meshTriangles : List (Vec3 × Vec3 × Vec3)
  concreteAbs : ℚ
  concreteScat : ℚ
  invSabineAbs : ℚ
  invSabineOrder : ℤ
deriving DecidableEq, Repr

/-- Walls built from mesh triangles, one wall per triangle, as both example
scripts do (`pra.wall_factory(mesh.vectors[w].T / 1.0, …)`). -/
def wallsFromMesh (tris : List (Vec3 × Vec3 × Vec3)) (absorption scattering : ℚ) :
    List Wall :=
  tris.map fun t => wall_factory t.1 t.2.1 t.2.2 absorption scattering

/-- Observable outcome of a `room_from_rt60_CR2.py` run. -/
structure Rt60Output where
  printedOrder : ℤ
  room : Room
  wavWritten : List (List ℚ)
  rt60Target : ℚ
  rt60Measured : ℚ
deriving DecidableEq

/-- Index (from the front) of the last nonzero sample of a signal. -/
def lastNonzeroIdx (l : List ℚ) : ℕ :=
  l.length - (l.reverse.findIdx (fun v => decide (v ≠ 0)) + 1)

/-- Model of `Room.measure_rt60()`, modelled as the decay length of a RIR in
seconds: index of its last nonzero sample over the sampling rate. -/
def measure_rt60 (fs : ℕ) (rir : List ℚ) : ℚ := (lastNonzeroIdx rir : ℚ) / (fs : ℚ)

/-- Discrete convolution used when the RIRs are applied to the source
signal (`room.simulate()` also mixes the signals). -/
def convolve (a b : List ℚ) : List ℚ :=
  (List.range (a.length + b.length)).map fun n =>
    ((List.range (n + 1)).map fun k =>
      (a.getD k 0) * (b.getD (n - k) 0)).sum

/-- Signal recorded at microphone `i` after simulation: sum over sources of
the source signal convolved with the corresponding RIR. -/
def micSignal (r : Room) (i : ℕ) : List ℚ :=
  let perSource := (r.rirs.getD i []).zip (r.sources.map Source.signal)
  perSource.foldl (fun acc p => (convolve p.1 p.2).zipWith (· + ·) acc) []

/-- Script `room_from_rt60_CR2.py` from argument parsing to its outputs.  The
branches on `args.method` at lines 51–63 of the source are commented out,
so the room is always built from the STL walls with `fs=8000`,
`max_order=1`, `ray_tracing=True`, `air_absorption=True`, the two sources
and the two-microphone array, and `--method` is parsed but never read
afterwards. -/
def rt60Script (ext : Rt60Ext) (methodArg : Option Method) : Rt60Output :=
  let _args := parseMethod methodArg
  let rt60_tgt : ℚ := 3 / 10
  let walls := wallsFromMesh ext.meshTriangles ext.concreteAbs ext.concreteScat
  let room0 := (mkRoom walls 8000 1 true true).add_source ⟨-2, 2, 9/5⟩ [] 0
  let room1 := room0.add_source ⟨5/2, 373/100, 44/25⟩ ext.wavAudio (1/2)
  let room2 := room1.add_microphone_array [⟨63/10, 487/100, 6/5⟩, ⟨63/10, 493/100, 6/5⟩]
  let simulated := room2.simulate
  { printedOrder := ext.invSabineOrder
    room := simulated
    wavWritten := [micSignal simulated 0, micSignal simulated 1]
    rt60Target := rt60_tgt
    rt60Measured := measure_rt60 simulated.fs ((simulated.rirs.getD 1 []).getD 0 []) }

/-- The hardcoded STL path assigned to `args.file` at line 36 of
`room_from_stl.py`. -/
def stlHardcodedPath : String :=
  "/home/jzhou3083/work/pyroomacoustics/examples/data/CR2.stl"

/-- The argparse namespace of `room_from_stl.py`: one optional positional
`file` argument. -/
structure StlArgs where
  file : Option String
deriving DecidableEq, Repr

/-- Model of `parser.parse_args()` in `room_from_stl.py`: the optional positional
argument, if any, becomes `args.file`. -/
def parseStlArgs (argv : List String) : StlArgs := ⟨argv.head?⟩

/-- Lines 31–41 of `room_from_stl.py`: parse the arguments, then overwrite
`args.file` with the hardcoded path, then hand `args.file` to the mesh
loader.  Returns the path actually loaded. -/
def stlResolvedPath (argv : List String) : String :=
  let args := parseStlArgs argv
  let args := { args with file := some stlHardcodedPath }
  args.file.getD ""

/-- External collaborators of `room_from_stl.py`: the wav file and the STL
mesh triangles. -/
structure StlExt where
  wavFs : ℕ
  wavAudio : List ℚ
  meshTriangles : List (Vec3 × Vec3 × Vec3)
  anechoicAbs : ℚ
  noScattering : ℚ
deriving DecidableEq, Repr

/-- The room built by `room_from_stl.py`: walls from the mesh with the
anechoic material, `fs=16000`, `max_order=-3`, `ray_tracing=True`,
`air_absorption=True`, one source with the guitar signal, two microphones
added at the same position, then `mov_microphone(0, [1, 4.1, 2.6])`. -/
def stlBuildRoom (ext : StlExt) : Room :=
  let walls := wallsFromMesh ext.meshTriangles ext.anechoicAbs ext.noScattering
  let room0 := (mkRoom walls 16000 (-3) true true).add_source ⟨-2, 2, 9/5⟩ ext.wavAudio (1/2)
  let room1 := (room0.add_microphone ⟨-13/2, 81/10, 2⟩).add_microphone ⟨-13/2, 81/10, 2⟩
  room1.mov_microphone 0 ⟨1, 41/10, 13/5⟩

/-- Observable trace of one script run: the lines printed, whether the
ImportError was re-raised, and how many rooms were constructed and
simulation pipelines run. -/
structure ScriptTrace where
  printed : List String
  importErrorRaised : Bool
  roomsConstructed : ℕ
  simulationsRun : ℕ
deriving DecidableEq, Repr

/-- The installation hint printed by both scripts when `from stl import
mesh` fails. -/
def numpyStlHint : String :=
  "The numpy-stl package is required for this example. " ++
    "Install it with `pip install numpy-stl`"

/-- Script `room_from_stl.py` as a whole, as a function of whether the `stl`
the import succeeds.  On failure the hint is printed and the ImportError is
re-raised before any room is constructed; on success the room is built,
`image_source_model`, `ray_tracing` and `compute_rir` are run and the
results plotted. -/
def runStlExample (stlOk : Bool) (ext : StlExt) : ScriptTrace :=
  if stlOk then
    let room := stlBuildRoom ext
    let _final := ((room.image_source_model).ray_tracing).compute_rir
    { printed := [], importErrorRaised := false
      roomsConstructed := 1, simulationsRun := 1 }
  else
    { printed := [numpyStlHint], importErrorRaised := true
      roomsConstructed := 0, simulationsRun := 0 }

/-- Script `room_from_rt60_CR2.py` as a whole, as a function of whether the `stl`
the import succeeds. -/
def runRt60Example (stlOk : Bool) (ext : Rt60Ext) (methodArg : Option Method) :
    ScriptTrace :=
  if stlOk then
    let out := rt60Script ext methodArg
    { printed := [toString out.printedOrder], importErrorRaised := false
      roomsConstructed := 1, simulationsRun := 1 }
  else
    { printed := [numpyStlHint], importErrorRaised := true
      roomsConstructed := 0, simulationsRun := 0 }

/-! ## Concrete instances used to exercise the theorems -/

/-- A concrete non-degenerate wall with absorption `1/2`. -/
def wallDemo : Wall := wall_factory ⟨0, 0, 0⟩ ⟨4, 0, 0⟩ ⟨0, 4, 4⟩ (1/2) 0

def wallsDemo : List Wall := [wallDemo]

/-- A concrete fully reflective wall (zero absorption, zero scattering). -/
def wallDemoZero : Wall := wall_factory ⟨4, -9, -9⟩ ⟨4, 9, -9⟩ ⟨4, 0, 9⟩ 0 0

def wallsDemoZero : List Wall := [wallDemoZero]

def srcDemo : Vec3 := ⟨1, 1, 1⟩

def micDemo : Vec3 := ⟨2, 1, 1⟩

/-- A concrete room with one source and two microphones. -/
def roomDemo : Room :=
  { mkRoom wallsDemo 16000 1 true true with
    sources := [⟨srcDemo, [], 0⟩], mics := [⟨0, 0, 0⟩, ⟨1, 1, 1⟩] }

/-- A concrete room passing every construction-time validation. -/
def roomDemo7 : Room :=
  { mkRoom wallsDemo 16000 1 true true with
    sources := [⟨srcDemo, [], 0⟩], mics := [micDemo] }

/-- A concrete external-world record for `room_from_rt60_CR2.py`. -/
def rt60ExtDemo : Rt60Ext :=
  { wavFs := 16000, wavAudio := [1, 0, -1], meshTriangles := []
    concreteAbs := 1/10, concreteScat := 1/10
    invSabineAbs := 1/5, invSabineOrder := 17 }

/-- A concrete external-world record for `room_from_stl.py`. -/
def stlExtDemo : StlExt :=
  { wavFs := 16000, wavAudio := [1, 0, -1], meshTriangles := []
    anechoicAbs := 1, noScattering := 0 }

/-! ## Helper lemmas -/

theorem dist2_nonneg (a b : Vec3) : 0 ≤ dist2 a b := by
  unfold dist2 Vec3.dot Vec3.sub
  have h1 := mul_self_nonneg (a.x - b.x)
  have h2 := mul_self_nonneg (a.y - b.y)
  have h3 := mul_self_nonneg (a.z - b.z)
  dsimp only at h1 h2 h3 ⊢
  linarith

theorem imgEnergy_nonneg (img : ImageSource) (mic : Vec3) :
    0 ≤ imgEnergy img mic :=
  div_nonneg (sq_nonneg _) (dist2_nonneg _ _)

theorem nearestHit_mem (walls : List Wall) (o d : Vec3) (t : ℚ) (w : Wall)
    (h : nearestHit walls o d = some (t, w)) : w ∈ walls := by
  induction walls with
  | nil => simp [nearestHit] at h
  | cons w0 ws ih =>
    rw [nearestHit] at h
    rcases hw : rayHitParam w0 o d with _ | t0 <;>
      rcases hr : nearestHit ws o d with _ | ⟨tb, wb⟩ <;>
        rw [hw, hr] at h
    · simp at h
    · simp only [Option.some.injEq, Prod.mk.injEq] at h
      obtain ⟨h1, h2⟩ := h
      subst h1; subst h2
      exact List.mem_cons_of_mem _ (ih hr)
    · simp only [Option.some.injEq, Prod.mk.injEq] at h
      obtain ⟨h1, h2⟩ := h
      subst h2
      exact List.mem_cons_self _ _
    · by_cases hlt : t0 < tb <;> simp only [hlt, if_true, if_false,
        Option.some.injEq, Prod.mk.injEq] at h
      · obtain ⟨h1, h2⟩ := h
        subst h2
        exact List.mem_cons_self _ _
      · obtain ⟨h1, h2⟩ := h
        subst h1; subst h2
        exact List.mem_cons_of_mem _ (ih hr)

/-! ## Claim theorems -/

/-- C9: In `room_from_stl.py` the optional positional `file` argument is
ignored: `args.file` is overwritten with the hardcoded absolute path before
the mesh is loaded, so the loaded STL path is always the hardcoded CR2.stl
regardless of any user-supplied path. -/
theorem C9_file_arg_ignored :
    ∀ argv argv2 : List String,
      stlResolvedPath argv = stlHardcodedPath ∧
      stlResolvedPath argv = stlResolvedPath argv2 := by
  intro argv argv2
  exact ⟨rfl, rfl⟩

/-- C10: In both example scripts, when the `stl` import fails, the script
prints the `pip install numpy-stl` hint and re-raises the ImportError, so
no room is constructed and no simulation is attempted. -/
theorem C10_import_failure_aborts :
    ∀ (extS : StlExt) (extR : Rt60Ext) (m : Option Method),
      runStlExample false extS = ⟨[numpyStlHint], true, 0, 0⟩ ∧
      runRt60Example false extR m = ⟨[numpyStlHint], true, 0, 0⟩ := by
  intro extS extR m
  exact ⟨rfl, rfl⟩

/-- C8: In `room_from_rt60_CR2.py` the parsed `--method` argument has no
influence: any two runs differing only in the method value build the same
room, run the same simulation and produce identical outputs, because the
branches selecting between methods are commented out. -/
theorem C8_method_no_influence :
    ∀ (ext : Rt60Ext) (m1 m2 : Option Method),
      rt60Script ext m1 = rt60Script ext m2 ∧
      runRt60Example true ext m1 = runRt60Example true ext m2 := by
  intro ext m1 m2
  exact ⟨rfl, rfl⟩

/-- C3: At max order 0 the image source engine produces exactly one image
source — the direct path — whose accumulated attenuation is 1, so its
energy is pure geometric `1/r²` spreading. -/
theorem C3_order_zero_direct_path :
    ∀ (walls : List Wall) (src mic : Vec3) (thr : ℚ) (fuel : ℕ),
      imageSourceEngine walls src 0 thr fuel = [directSource src] ∧
      validImages walls src mic 0 = [directSource src] ∧
      (directSource src).attenuation = 1 ∧
      imgEnergy (directSource src) mic = 1 / dist2 src mic := by
  intro walls src mic thr fuel
  refine ⟨?_, ?_, rfl, ?_⟩
  · rfl
  · rfl
  · simp [imgEnergy, directSource]

/-- C5: RIR synthesis (`compute_rir`) is a deterministic function of the
stored image-source sets and histograms: it is unaffected by the RNG seed
(no ray is re-sampled), two states agreeing on the synthesis inputs give
bit-identical RIR arrays, and re-running it leaves the RIRs unchanged. -/
theorem C5_synthesis_deterministic :
    ∀ (r : Room),
      (∀ s1 s2 : ℕ,
        (Room.compute_rir { r with seed := s1 }).rirs =
          (Room.compute_rir { r with seed := s2 }).rirs) ∧
      (∀ r2 : Room, r2.images = r.images → r2.hists = r.hists →
        r2.mics = r.mics → r2.fs = r.fs → r2.c = r.c → r2.rirLen = r.rirLen →
        r2.airAbsorptionOn = r.airAbsorptionOn → r2.airCoef = r.airCoef →
        (Room.compute_rir r2).rirs = (Room.compute_rir r).rirs) ∧
      (Room.compute_rir (Room.compute_rir r)).rirs = (Room.compute_rir r).rirs := by
  intro r
  refine ⟨fun s1 s2 => rfl, ?_, rfl⟩
  intro r2 him hh hm hfs hc hlen hair hcoef
  have hsp : ∀ (mic : Vec3) (iss : List ImageSource) (hist : List ℚ),
      synthPair r2 mic iss hist = synthPair r mic iss hist := by
    intro mic iss hist
    unfold synthPair
    rw [hfs, hc, hlen, hair, hcoef]
  show ((r2.mics.zip (r2.images.zip r2.hists)).map
      (fun p => (p.2.1.zip p.2.2).map (fun q => synthPair r2 p.1 q.1 q.2))) =
    ((r.mics.zip (r.images.zip r.hists)).map
      (fun p => (p.2.1.zip p.2.2).map (fun q => synthPair r p.1 q.1 q.2)))
  rw [him, hh, hm]
  simp only [hsp]

/-- The RIRs produced by a full `simulate()` run, expressed per microphone:
the block of each microphone is a function of the room minus its microphone list
and of the own position of that microphone only. -/
theorem simulate_rirs (r : Room) :
    (Room.simulate r).rirs = r.mics.map (fun m =>
      ((ismForMic r m).zip (histForMic r m)).map
        (fun q => synthPair r m q.1 q.2)) := by
  show (r.mics.zip ((r.mics.map (ismForMic r)).zip (r.mics.map (histForMic r)))).map
      (fun p => (p.2.1.zip p.2.2).map (fun q => synthPair r p.1 q.1 q.2)) = _
  rw [List.zip_map' (ismForMic r) (histForMic r) r.mics]
  have hz : r.mics.zip (r.mics.map (fun m => (ismForMic r m, histForMic r m))) =
      r.mics.map (fun m => (m, ismForMic r m, histForMic r m)) := by
    induction r.mics with
    | nil => rfl
    | cons a as ih => simpa using ih
  rw [hz, List.map_map]
  rfl

/-- C5 witness at a concrete room: different seeds, identical synthesis. -/
theorem C5_witness :
    (Room.compute_rir { roomDemo with seed := 1 }).rirs =
      (Room.compute_rir { roomDemo with seed := 2 }).rirs ∧
    (Room.compute_rir roomDemo).rirs = (Room.compute_rir roomDemo).rirs :=
  ⟨(C5_synthesis_deterministic roomDemo).1 1 2,
   (C5_synthesis_deterministic roomDemo).2.1 roomDemo rfl rfl rfl rfl rfl rfl rfl rfl⟩

theorem mov_microphone_mics (r : Room) (i : ℕ) (p : Vec3) :
    (Room.mov_microphone r i p).mics = r.mics.set i p := rfl

theorem simulate_mics (r : Room) : (Room.simulate r).mics = r.mics := rfl

theorem ismForMic_mov (r : Room) (i : ℕ) (p : Vec3) (m : Vec3) :
    ismForMic (Room.mov_microphone r i p) m = ismForMic r m := rfl

theorem ismForMic_simulate (r : Room) (m : Vec3) :
    ismForMic (Room.simulate r) m = ismForMic r m := rfl

theorem histForMic_mov (r : Room) (i : ℕ) (p : Vec3) (m : Vec3) :
    histForMic (Room.mov_microphone r i p) m = histForMic r m := rfl

theorem histForMic_simulate (r : Room) (m : Vec3) :
    histForMic (Room.simulate r) m = histForMic r m := rfl

theorem synthPair_mov (r : Room) (i : ℕ) (p : Vec3) (m : Vec3)
    (iss : List ImageSource) (hist : List ℚ) :
    synthPair (Room.mov_microphone r i p) m iss hist = synthPair r m iss hist := rfl

theorem synthPair_simulate (r : Room) (m : Vec3)
    (iss : List ImageSource) (hist : List ℚ) :
    synthPair (Room.simulate r) m iss hist = synthPair r m iss hist := rfl

/-- C1: moving microphone `i` and re-running the simulation changes only
the RIR block of microphone `i`: every other microphone `j ≠ i` keeps a RIR
identical to the one computed before the move. -/
theorem C1_mov_microphone_frame_effect :
    ∀ (r : Room) (i : ℕ) (p : Vec3) (j : ℕ), j ≠ i →
      (Room.simulate (Room.mov_microphone (Room.simulate r) i p)).rirs[j]? =
        (Room.simulate r).rirs[j]? := by
  intro r i p j hj
  rw [simulate_rirs, simulate_rirs]
  simp only [mov_microphone_mics, simulate_mics, ismForMic_mov, ismForMic_simulate,
    histForMic_mov, histForMic_simulate, synthPair_mov, synthPair_simulate]
  rw [List.map_set, List.getElem?_set_ne (Ne.symm hj)]

/-- C1 witness at a concrete two-microphone room: microphone 0 is moved,
the RIR block of microphone 1 is unchanged. -/
theorem C1_witness :
    (Room.simulate (Room.mov_microphone (Room.simulate roomDemo) 0 ⟨2, 2, 2⟩)).rirs[1]? =
      (Room.simulate roomDemo).rirs[1]? :=
  C1_mov_microphone_frame_effect roomDemo 0 ⟨2, 2, 2⟩ 1 (by decide)

theorem genUpTo_succ (walls : List Wall) (src : Vec3) (n : ℕ) :
    genUpTo walls src (n + 1) = genUpTo walls src n ++ ismLayer walls src (n + 1) := by
  simp [genUpTo, List.range_succ, List.flatMap_append]

theorem genUpTo_le_decomp (walls : List Wall) (src : Vec3) {n1 n2 : ℕ}
    (h : n1 ≤ n2) :
    ∃ s, genUpTo walls src n2 = genUpTo walls src n1 ++ s := by
  induction n2, h using Nat.le_induction with
  | base => exact ⟨[], (List.append_nil _).symm⟩
  | succ n hmn ih =>
    obtain ⟨s, hs⟩ := ih
    exact ⟨s ++ ismLayer walls src (n + 1), by
      rw [genUpTo_succ, hs, List.append_assoc]⟩

/-- C4: the image-source count and the captured deterministic RIR energy
are monotone non-decreasing in the max reflection order. -/
theorem C4_order_monotone :
    ∀ (walls : List Wall) (src mic : Vec3) (n1 n2 : ℕ), n1 ≤ n2 →
      (genUpTo walls src n1).length ≤ (genUpTo walls src n2).length ∧
      (validImages walls src mic n1).length ≤
        (validImages walls src mic n2).length ∧
      detEnergy walls src mic n1 ≤ detEnergy walls src mic n2 := by
  intro walls src mic n1 n2 h
  obtain ⟨s, hs⟩ := genUpTo_le_decomp walls src h
  refine ⟨?_, ?_, ?_⟩
  · rw [hs, List.length_append]
    exact Nat.le_add_right _ _
  · unfold validImages
    rw [hs, List.filter_append, List.length_append]
    exact Nat.le_add_right _ _
  · unfold detEnergy validImages
    rw [hs, List.filter_append, List.map_append, List.sum_append]
    have hnn : 0 ≤ ((s.filter (fun img => visible walls img mic)).map
        (fun img => imgEnergy img mic)).sum := by
      refine List.sum_nonneg ?_
      intro x hx
      obtain ⟨img, _, rfl⟩ := List.mem_map.mp hx
      exact imgEnergy_nonneg img mic
    linarith

/-- C4 witness at a concrete room, orders 1 ≤ 2. -/
theorem C4_witness :
    (genUpTo wallsDemo srcDemo 1).length ≤ (genUpTo wallsDemo srcDemo 2).length ∧
    (validImages wallsDemo srcDemo micDemo 1).length ≤
      (validImages wallsDemo srcDemo micDemo 2).length ∧
    detEnergy wallsDemo srcDemo micDemo 1 ≤ detEnergy wallsDemo srcDemo micDemo 2 :=
  C4_order_monotone wallsDemo srcDemo micDemo 1 2 (by decide)

theorem traceRay_bounces_le (walls : List Wall) (thr : ℚ) (mic : Vec3) (rad2 : ℚ) :
    ∀ (fuel : ℕ) (o d : Vec3) (e plen : ℚ),
      (traceRay walls thr mic rad2 fuel o d e plen).bounces ≤ fuel := by
  intro fuel
  induction fuel with
  | zero => intro o d e plen; exact Nat.le_refl 0
  | succ n ih =>
    intro o d e plen
    rw [traceRay]
    split
    · exact Nat.zero_le _
    · split
      · exact Nat.zero_le _
      · dsimp only
        exact Nat.succ_le_succ (ih _ _ _ _)

theorem traceRay_no_threshold_stop (walls : List Wall) (thr : ℚ) (mic : Vec3)
    (rad2 : ℚ) (habs : ∀ w ∈ walls, w.absorption = 0) :
    ∀ (fuel : ℕ) (o d : Vec3) (e plen : ℚ), thr ≤ e →
      (traceRay walls thr mic rad2 fuel o d e plen).reason ≠
        StopReason.belowThreshold := by
  intro fuel
  induction fuel with
  | zero =>
    intro o d e plen he h
    exact StopReason.noConfusion h
  | succ n ih =>
    intro o d e plen he
    rw [traceRay]
    rw [if_neg (not_lt.mpr he)]
    split
    · intro h; exact StopReason.noConfusion h
    next t w hn =>
      dsimp only
      have hw := nearestHit_mem walls o d t w hn
      have ha := habs w hw
      have he2 : thr ≤ e * (1 - w.absorption) := by
        rw [ha]
        simpa using he
      exact ih _ _ _ _ he2

theorem ismLayer_order (walls : List Wall) (src : Vec3) :
    ∀ (n : ℕ) (img : ImageSource), img ∈ ismLayer walls src n → img.order = n := by
  intro n
  induction n with
  | zero =>
    intro img h
    rw [ismLayer, List.mem_singleton] at h
    subst h
    rfl
  | succ n ih =>
    intro img h
    rw [ismLayer, List.mem_flatMap] at h
    obtain ⟨par, hpar, hc⟩ := h
    unfold children at hc
    obtain ⟨p, _, rfl⟩ := List.mem_map.mp hc
    simp [ih par hpar]

theorem genUpTo_order_le (walls : List Wall) (src : Vec3) (n : ℕ)
    (img : ImageSource) (h : img ∈ genUpTo walls src n) : img.order ≤ n := by
  unfold genUpTo at h
  rw [List.mem_flatMap] at h
  obtain ⟨k, hk, hi⟩ := h
  rw [List.mem_range] at hk
  rw [ismLayer_order walls src k img hi]
  omega

/-- C6: both engines have a hard recursion/iteration bound — a ray never
bounces more than the bounce cap and an image source never exceeds the
generation depth — and in a fully reflective room (zero absorption) a ray
never stops by the energy threshold: it stops only via the bounce cap or by
leaving an open geometry. -/
theorem C6_termination_bounds :
    (∀ (walls : List Wall) (thr : ℚ) (mic : Vec3) (rad2 : ℚ) (fuel : ℕ)
        (o d : Vec3) (e plen : ℚ),
      (traceRay walls thr mic rad2 fuel o d e plen).bounces ≤ fuel) ∧
    (∀ (walls : List Wall) (src : Vec3) (n : ℕ) (img : ImageSource),
      img ∈ genUpTo walls src n → img.order ≤ n) ∧
    (∀ (walls : List Wall) (thr : ℚ) (mic : Vec3) (rad2 : ℚ) (fuel : ℕ)
        (o d : Vec3) (e plen : ℚ),
      (∀ w ∈ walls, w.absorption = 0) → thr ≤ e →
      (traceRay walls thr mic rad2 fuel o d e plen).reason ≠
          StopReason.belowThreshold ∧
      ((traceRay walls thr mic rad2 fuel o d e plen).reason = StopReason.bounceCap ∨
        (traceRay walls thr mic rad2 fuel o d e plen).reason = StopReason.escaped)) := by
  refine ⟨fun walls thr mic rad2 fuel o d e plen =>
      traceRay_bounces_le walls thr mic rad2 fuel o d e plen,
    fun walls src n img h => genUpTo_order_le walls src n img h,
    fun walls thr mic rad2 fuel o d e plen habs he => ?_⟩
  have hne := traceRay_no_threshold_stop walls thr mic rad2 habs fuel o d e plen he
  refine ⟨hne, ?_⟩
  cases hre : (traceRay walls thr mic rad2 fuel o d e plen).reason
  · exact Or.inl rfl
  · exact absurd hre hne
  · exact Or.inr rfl

/-- C6 witness: a concrete fully reflective wall, threshold equal to the
ray energy — the trace does not stop by the energy threshold. -/
theorem C6_witness :
    (traceRay wallsDemoZero 1 micDemo (1/4) 3 ⟨0, 0, 0⟩ ⟨1, 0, 0⟩ 1 0).reason ≠
      StopReason.belowThreshold :=
  (C6_termination_bounds.2.2 wallsDemoZero 1 micDemo (1/4) 3 ⟨0, 0, 0⟩ ⟨1, 0, 0⟩ 1 0
    (by decide) (by decide)).1

theorem autoLayer_att_bound (walls : List Wall) (src : Vec3) (thr r : ℚ)
    (hr0 : 0 ≤ r)
    (hw : ∀ w ∈ walls, 0 ≤ 1 - w.absorption ∧ 1 - w.absorption ≤ r) :
    ∀ (n : ℕ) (img : ImageSource), img ∈ autoLayer walls src thr n →
      0 ≤ img.attenuation ∧ img.attenuation ≤ r ^ n := by
  intro n
  induction n with
  | zero =>
    intro img h
    rw [autoLayer, List.mem_singleton] at h
    subst h
    exact ⟨zero_le_one, by simp [directSource]⟩
  | succ n ih =>
    intro img h
    rw [autoLayer, List.mem_flatMap] at h
    obtain ⟨par, hpar, hc⟩ := h
    rw [List.mem_filter] at hpar
    unfold children at hc
    obtain ⟨⟨i, w2⟩, hp, rfl⟩ := List.mem_map.mp hc
    have hpw : w2 ∈ walls := by
      rw [List.enum_eq_zip_range] at hp
      exact (List.of_mem_zip hp).2
    obtain ⟨hw0, hwr⟩ := hw _ hpw
    have h0 := ih par hpar.1
    refine ⟨mul_nonneg h0.1 hw0, ?_⟩
    calc par.attenuation * (1 - w2.absorption) ≤ r ^ n * r :=
        mul_le_mul h0.2 hwr hw0 (pow_nonneg hr0 n)
    _ = r ^ (n + 1) := (pow_succ r n).symm

theorem autoLayer_eq_nil_of_le (walls : List Wall) (src : Vec3) (thr r : ℚ)
    (hr0 : 0 ≤ r) (hr1 : r < 1)
    (hw : ∀ w ∈ walls, 0 ≤ 1 - w.absorption ∧ 1 - w.absorption ≤ r)
    (D : ℕ) (hD : r ^ D < thr) :
    ∀ n, D ≤ n → autoLayer walls src thr (n + 1) = [] := by
  intro n hn
  rw [autoLayer]
  have hf : (autoLayer walls src thr n).filter
      (fun img => decide (thr ≤ img.attenuation)) = [] := by
    rw [List.filter_eq_nil_iff]
    intro img hmem
    have hb := autoLayer_att_bound walls src thr r hr0 hw n img hmem
    have hlt : img.attenuation < thr :=
      lt_of_le_of_lt (le_trans hb.2 (pow_le_pow_of_le_one hr0 (le_of_lt hr1) hn)) hD
    simpa using not_le.mpr hlt
  rw [hf]
  rfl

theorem autoGen_succ (walls : List Wall) (src : Vec3) (thr : ℚ) (f : ℕ) :
    autoGen walls src thr (f + 1) =
      autoGen walls src thr f ++ autoLayer walls src thr (f + 1) := by
  simp [autoGen, List.range_succ, List.flatMap_append]

theorem autoGen_stable (walls : List Wall) (src : Vec3) (thr r : ℚ)
    (hr0 : 0 ≤ r) (hr1 : r < 1)
    (hw : ∀ w ∈ walls, 0 ≤ 1 - w.absorption ∧ 1 - w.absorption ≤ r)
    (D : ℕ) (hD : r ^ D < thr) :
    ∀ f, D ≤ f → autoGen walls src thr f = autoGen walls src thr D := by
  intro f hf
  induction f, hf using Nat.le_induction with
  | base => rfl
  | succ n hmn ih =>
    rw [autoGen_succ,
      autoLayer_eq_nil_of_le walls src thr r hr0 hr1 hw D hD n hmn,
      List.append_nil, ih]

theorem autoLayer_parent (walls : List Wall) (src : Vec3) (thr : ℚ) :
    ∀ (n : ℕ) (img : ImageSource), img ∈ autoLayer walls src thr (n + 1) →
      ∃ par ∈ autoLayer walls src thr n,
        thr ≤ par.attenuation ∧ img ∈ children walls par := by
  intro n img h
  rw [autoLayer, List.mem_flatMap] at h
  obtain ⟨par, hpar, hc⟩ := h
  rw [List.mem_filter] at hpar
  exact ⟨par, hpar.1, by simpa using hpar.2, hc⟩

/-- C2: with a negative max reflection order the image source engine does
not use the value as a literal depth — any two negative sentinels give the
same output, which is the automatic-depth generation: a branch is extended
only while its contribution stays at least the configurable threshold, and
once the maximal per-reflection factor `r < 1` has decayed below the
threshold every deeper layer is empty, so the generation is bounded and
independent of the technical fuel bound. -/
theorem C2_negative_order_auto_depth :
    ∀ (walls : List Wall) (src : Vec3) (m1 m2 : ℤ) (thr r : ℚ) (fuel : ℕ),
      m1 < 0 → m2 < 0 → 0 < thr → 0 ≤ r → r < 1 →
      (∀ w ∈ walls, 0 ≤ 1 - w.absorption ∧ 1 - w.absorption ≤ r) →
      imageSourceEngine walls src m1 thr fuel =
          imageSourceEngine walls src m2 thr fuel ∧
      imageSourceEngine walls src m1 thr fuel = autoGen walls src thr fuel ∧
      (∀ (n : ℕ) (img : ImageSource), img ∈ autoLayer walls src thr (n + 1) →
        ∃ par ∈ autoLayer walls src thr n,
          thr ≤ par.attenuation ∧ img ∈ children walls par) ∧
      (∃ D : ℕ, (∀ n, D ≤ n → autoLayer walls src thr (n + 1) = []) ∧
        (∀ f2, D ≤ f2 → autoGen walls src thr f2 = autoGen walls src thr D)) := by
  intro walls src m1 m2 thr r fuel h1 h2 hthr hr0 hr1 hw
  have he1 : imageSourceEngine walls src m1 thr fuel = autoGen walls src thr fuel := by
    unfold imageSourceEngine
    rw [if_neg (not_le.mpr h1)]
  have he2 : imageSourceEngine walls src m2 thr fuel = autoGen walls src thr fuel := by
    unfold imageSourceEngine
    rw [if_neg (not_le.mpr h2)]
  obtain ⟨D, hD⟩ := exists_pow_lt_of_lt_one hthr hr1
  exact ⟨he1.trans he2.symm, he1, autoLayer_parent walls src thr, D,
    autoLayer_eq_nil_of_le walls src thr r hr0 hr1 hw D hD,
    autoGen_stable walls src thr r hr0 hr1 hw D hD⟩

/-- C2 witness: two different negative sentinels on a concrete room give
the same image-source set. -/
theorem C2_witness :
    imageSourceEngine wallsDemo srcDemo (-3) (1/4) 5 =
      imageSourceEngine wallsDemo srcDemo (-7) (1/4) 5 :=
  (C2_negative_order_auto_depth wallsDemo srcDemo (-3) (-7) (1/4) (1/2) 5
    (by decide) (by decide) (by norm_num) (by norm_num) (by norm_num)
    (by
      intro w hmem
      simp only [wallsDemo, List.mem_singleton] at hmem
      subst hmem
      constructor <;> norm_num [wallDemo, wall_factory])).1

/-- C7: geometry and configuration errors are surfaced at
room-construction / parameter-set time: a room accepted by `validateRoom`
has no degenerate wall, a nonzero sampling rate and ray count, and all
sources and microphones inside the room bounds — and a simulation run on
it can never report a geometry or configuration error. -/
theorem C7_validation_at_construction :
    ∀ (r room : Room), validateRoom r = Except.ok room →
      (∀ w ∈ r.walls, w.isDegenerate = false) ∧
      r.fs ≠ 0 ∧ r.nRays ≠ 0 ∧
      (∀ p ∈ r.sources.map Source.pos ++ r.mics,
        insideBounds (boundsLo r.walls) (boundsHi r.walls) p = true) ∧
      room = r ∧
      (∀ e, simulateChecked room = Except.error e →
        e ≠ SimError.geometryError ∧ e ≠ SimError.configurationError) := by
  intro r room h
  unfold validateRoom at h
  by_cases h1 : r.walls.any Wall.isDegenerate = true
  · rw [if_pos h1] at h
    exact absurd h (by simp)
  rw [if_neg h1] at h
  by_cases h2 : r.fs = 0
  · rw [if_pos h2] at h
    exact absurd h (by simp)
  rw [if_neg h2] at h
  by_cases h3 : r.nRays = 0
  · rw [if_pos h3] at h
    exact absurd h (by simp)
  rw [if_neg h3] at h
  by_cases h4 : (r.sources.map Source.pos ++ r.mics).all
      (insideBounds (boundsLo r.walls) (boundsHi r.walls)) = true
  · rw [if_pos h4] at h
    have hroom : room = r := (Except.ok.inj h).symm
    refine ⟨?_, h2, h3, ?_, hroom, ?_⟩
    · intro w hw
      rcases hdeg : w.isDegenerate with _ | _
      · rfl
      · exact absurd (List.any_eq_true.mpr ⟨w, hw, hdeg⟩) h1
    · exact fun p hp => List.all_eq_true.mp h4 p hp
    · intro e he
      unfold simulateChecked at he
      by_cases hdec : decayIncomplete (Room.simulate room) = true
      · rw [if_pos hdec] at he
        have : e = SimError.resourceLimitError := (Except.error.inj he).symm
        subst this
        exact ⟨fun hh => SimError.noConfusion hh, fun hh => SimError.noConfusion hh⟩
      · rw [if_neg hdec] at he
        exact absurd he (by simp)
  · rw [if_neg h4] at h
    exact absurd h (by simp)

/-- C7 witness: a concrete room passes construction-time validation and
its simulation can only ever report a resource-limit condition, never a
geometry or configuration error. -/
theorem C7_witness :
    roomDemo7.fs ≠ 0 ∧
    (∀ e, simulateChecked roomDemo7 = Except.error e →
      e ≠ SimError.geometryError ∧ e ≠ SimError.configurationError) := by
  have h : validateRoom roomDemo7 = Except.ok roomDemo7 := by
    norm_num [validateRoom, roomDemo7, mkRoom, wallsDemo, wallDemo, wall_factory,
      Wall.isDegenerate, Wall.normal, Vec3.cross, Vec3.sub, Vec3.zero,
      boundsLo, boundsHi, roomVerts, wallVerts, vecMin, vecMax, insideBounds,
      srcDemo, micDemo, List.foldl, min_def, max_def]
  have hc := C7_validation_at_construction roomDemo7 roomDemo7 h
  exact ⟨hc.2.1, hc.2.2.2.2.2⟩
